import Mathlib

/-!
Verification of the tokenlib token library (mozilla-services/tokenlib).

The development shallowly embeds the cryptographic core of the library:

* `strings_differ` (src/tokenlib/utils.py) — the constant-time comparator;
* `HKDF_extract`, `HKDF_expand`, `HKDF` (src/tokenlib/utils.py) — the
  RFC-5869 key-derivation engine, parameterized over the hash module;
* `TokenManager.make_token`, `TokenManager.parse_token`,
  `TokenManager.get_derived_secret` (src/tokenlib/__init__.py).

External Python libraries are modeled as parameters:

* the hash/HMAC module (`hashlib`/`hmac`) as a `HashMod` structure carrying
  an abstract HMAC function with a fixed digest size;
* base64 (`base64.urlsafe_b64encode`/`urlsafe_b64decode` via
  `encode_token_bytes`/`decode_token_bytes`) as a `B64` structure: an
  encoder into native strings and a partial decoder that inverts it;
* the `json` module as a `Json` structure with `dumps`/`loads`; the
  round-trip property is assumed pointwise where a claim needs it.

Byte strings are modeled as `List Nat`.  Python exceptions escaping the
library functions are modeled with the `PyErr` type: the three tokenlib
errors (all `ValueError` subclasses) plus the uncaught standard errors
that can escape (`KeyError`, `TypeError`, `AttributeError`,
`AssertionError`).  Randomness (`os.urandom`) and the clock (`time.time`)
are passed as explicit arguments.  Executable toy instances of the
external-library structures are provided at the end so that every theorem
can be exercised on concrete inputs.
-/

/-- JSON values that can appear in a claims mapping: strings and numbers.
(Timestamps are modeled as integers.) -/
inductive JVal where
  | str : String → JVal
  | num : Int → JVal
deriving DecidableEq, Repr

/-- A Python dict of claims: an insertion-ordered association list from
string keys to JSON values. -/
abbrev Dict : Type := List (String × JVal)

/-- Key lookup, as Python `d[k]` / `k in d`. -/
def Dict.lookup (d : Dict) (k : String) : Option JVal := List.lookup k d

/-- Errors escaping the tokenlib entry points.  The first three are the
tokenlib error classes from src/tokenlib/errors.py (subclasses of the
base `Error(ValueError)`); the rest are ordinary Python exceptions that
the library does not catch. -/
inductive PyErr where
  | malformed      -- MalformedTokenError
  | invalidSig     -- InvalidSignatureError
  | expired        -- ExpiredTokenError
  | keyError       -- uncaught KeyError
  | typeError      -- uncaught TypeError
  | attributeError -- uncaught AttributeError
  | assertErr      -- uncaught AssertionError
deriving DecidableEq, Repr

/-- Whether an error is one of the tokenlib token-validation errors, i.e.
an instance of `tokenlib.errors.Error`. -/
def PyErr.isTokenError : PyErr → Bool
  | .malformed => true
  | .invalidSig => true
  | .expired => true
  | _ => false

/-- Python `s.encode("ascii")` on a string already known to be ASCII
(such as the token text after a successful base64 decode, whose
encoding failure is folded into `B64.dec`): the bytes of the string. -/
def strBytes (s : String) : List Nat := s.data.map Char.toNat

/-- Python `s.encode("ascii")` in full: succeeds with the byte values
exactly when every character is ASCII, and raises `UnicodeEncodeError` —
a `ValueError` subclass — otherwise, modeled as `none`. -/
def asciiBytes (s : String) : Option (List Nat) :=
  if s.data.all (fun c => c.toNat < 128) then some (s.data.map Char.toNat)
  else none

/-- src/tokenlib/utils.py `strings_differ(string1, string2)`: early exit on
a length mismatch, otherwise accumulate the XOR of each byte pair and
report a difference iff the accumulator is nonzero. -/
def strings_differ (string1 string2 : List Nat) : Bool :=
  if string1.length ≠ string2.length then true
  else ((string1.zip string2).foldl (fun acc p => acc + (p.1 ^^^ p.2)) 0) != 0

/-- The hash module (`hashlib.sha256` etc.) together with the `hmac`
library: an abstract HMAC whose output always has the hash's digest
size. -/
structure HashMod where
  digest_size : Nat
  digest_size_pos : 0 < digest_size
  hmac : List Nat → List Nat → List Nat
  hmac_length : ∀ key value, (hmac key value).length = digest_size

/-- src/tokenlib/utils.py `HKDF_extract(salt, IKM)`: when the salt is
absent a zero-filled digest-size buffer is substituted; the PRK is
`HMAC(salt, IKM)`. -/
def HKDF_extract (H : HashMod) (salt : Option (List Nat)) (IKM : List Nat) :
    List Nat :=
  H.hmac (salt.getD (List.replicate H.digest_size 0)) IKM

/-- src/tokenlib/utils.py `HKDF_expand(PRK, info, L)`: loop `i = 1..N`
with `N = ceil(L / digest_size)`, keeping the previous block `T` and the
list `output` of blocks, then join and truncate to `L` bytes.  The
`assert N <= 255` is modeled by returning `none` (an uncaught
`AssertionError`) when it fails. -/
def HKDF_expand (H : HashMod) (PRK info : List Nat) (L : Nat) :
    Option (List Nat) :=
  let N := (L + H.digest_size - 1) / H.digest_size
  if N ≤ 255 then
    some (((List.range' 1 N).foldl
      (fun acc i =>
        let T := H.hmac PRK (acc.1 ++ info ++ [i])
        (T, acc.2 ++ [T]))
      (([] : List Nat), ([] : List (List Nat)))).2.flatten.take L)
  else none

/-- src/tokenlib/utils.py `HKDF(secret, salt, info, size)`:
extract-then-expand. -/
def HKDF (H : HashMod) (secret : List Nat) (salt : Option (List Nat))
    (info : List Nat) (size : Nat) : Option (List Nat) :=
  HKDF_expand H (HKDF_extract H salt secret) info size

/-- RFC 5869 block recurrence: `T(0) = empty`,
`T(i) = HMAC(PRK, T(i-1) || info || byte(i))`. -/
def rfcT (H : HashMod) (PRK info : List Nat) : Nat → List Nat
  | 0 => []
  | i + 1 => H.hmac PRK (rfcT H PRK info i ++ info ++ [i + 1])

/-- RFC 5869 accumulated output: `T(1) || T(2) || ... || T(n)`. -/
def rfcBlocks (H : HashMod) (PRK info : List Nat) : Nat → List Nat
  | 0 => []
  | n + 1 => rfcBlocks H PRK info n ++ rfcT H PRK info (n + 1)

/-- RFC 5869 Expand, written from the spec: concatenate
`ceil(L / digest_size)` blocks of the recurrence and truncate to exactly
`L` bytes; undefined when more than 255 blocks would be needed. -/
def rfcExpand (H : HashMod) (PRK info : List Nat) (L : Nat) :
    Option (List Nat) :=
  let N := (L + H.digest_size - 1) / H.digest_size
  if N ≤ 255 then some ((rfcBlocks H PRK info N).take L) else none

/-- The base64 module (`base64.urlsafe_b64encode`/`urlsafe_b64decode`, as
wrapped by `encode_token_bytes`/`decode_token_bytes` in
src/tokenlib/utils.py): an injective encoder of bytes into native
strings whose decoder inverts it and fails (raising an error caught as
`MalformedToken`) on non-decodable input. -/
structure B64 where
  enc : List Nat → String
  dec : String → Option (List Nat)
  dec_enc : ∀ bs, dec (enc bs) = some bs

/-- The `json` module: `dumps` serializes a claims dict to payload bytes,
`loads` parses payload bytes back (returning `none` when the bytes are
not the UTF-8 JSON serialization of an object). -/
structure Json where
  dumps : Dict → List Nat
  loads : List Nat → Option Dict

/-- src/tokenlib/__init__.py `TokenManager`: master secret, timeout and
hash module fixed at construction. -/
structure TokenManager where
  hash : HashMod
  secret : List Nat
  timeout : Int

/-- src/tokenlib/__init__.py line 44: the signing-context info string. -/
def HKDF_INFO_SIGNING : List Nat :=
  strBytes "services.mozilla.com/tokenlib/v1/signing"

/-- src/tokenlib/__init__.py line 45: the derive-context info prefix. -/
def HKDF_INFO_DERIVE : List Nat :=
  strBytes "services.mozilla.com/tokenlib/v1/derive/"

/-- src/tokenlib/__init__.py lines 91-94: the cached signing key
`_sig_secret`, HKDF-derived from the master secret with no salt and the
signing-context info string, with digest-size length.  (`HKDF` always
succeeds at this size, so the default is irrelevant.) -/
def TokenManager.sig_secret (m : TokenManager) : List Nat :=
  (HKDF m.hash m.secret none HKDF_INFO_SIGNING m.hash.digest_size).getD []

/-- src/tokenlib/__init__.py `_get_signature(value)`:
`hmac.new(self._sig_secret, value, self.hashmod).digest()`. -/
def TokenManager.get_signature (m : TokenManager) (value : List Nat) :
    List Nat :=
  m.hash.hmac m.sig_secret value

/-- src/tokenlib/__init__.py lines 103-107: the claims dict actually
serialized by `make_token` — the caller's dict with `salt` appended when
absent, then `expires = now + timeout` appended when absent.  `salt`
stands for `hexlify(os.urandom(3))` and `now` for `time.time()`. -/
def withDefaults (data : Dict) (salt : String) (expires : Int) : Dict :=
  let d1 := if (data.lookup "salt").isNone
    then data ++ ([("salt", JVal.str salt)] : Dict) else data
  if (d1.lookup "expires").isNone
    then d1 ++ ([("expires", JVal.num expires)] : Dict) else d1

/-- src/tokenlib/__init__.py `make_token(data)`: copy the dict, default
the `salt` and `expires` keys, JSON-serialize, append the HMAC signature
and base64-encode. -/
def make_token (b : B64) (j : Json) (m : TokenManager) (data : Dict)
    (salt : String) (now : Int) : String :=
  let data := withDefaults data salt (now + m.timeout)
  let payload := j.dumps data
  let sig := m.get_signature payload
  b.enc (payload ++ sig)

/-- src/tokenlib/__init__.py `parse_token(token, now)`: base64-decode
(decode errors are caught and re-raised as `MalformedToken`), split off
the digest-size signature suffix, constant-time-compare it against the
recomputed signature (`InvalidSignature` on mismatch), only then
JSON-parse the payload (`MalformedToken` on failure) and check
`data["expires"] <= now` (`ExpiredToken`).  A missing `expires` key or a
non-numeric one escapes as an uncaught `KeyError`/`TypeError`, exactly as
in the Python code where the expiry check sits outside any handler.

The function is split in two: `parse_payload` is the body from line 125
on (everything after `decode_token_bytes` succeeded, with the `payload`
and `sig` locals inlined), `parse_token` adds the decoding step. -/
def parse_payload (j : Json) (m : TokenManager) (decoded : List Nat)
    (now : Int) : Except PyErr Dict :=
  if strings_differ (decoded.drop (decoded.length - m.hash.digest_size))
      (m.get_signature (decoded.take (decoded.length - m.hash.digest_size)))
    then .error .invalidSig
  else
    match j.loads (decoded.take (decoded.length - m.hash.digest_size)) with
    | none => .error .malformed
    | some data =>
      match data.lookup "expires" with
      | none => .error .keyError
      | some (.str _) => .error .typeError
      | some (.num e) => if e ≤ now then .error .expired else .ok data

def parse_token (b : B64) (j : Json) (m : TokenManager) (token : String)
    (now : Int) : Except PyErr Dict :=
  match b.dec token with
  | none => .error .malformed
  | some decoded => parse_payload j m decoded now

/-- src/tokenlib/__init__.py `get_derived_secret(token)`: strip the
signature suffix without verifying it, recover `salt` from the payload
JSON (`TypeError`/`KeyError`/`ValueError` become `MalformedToken`), then
HKDF the master secret with that salt and the derive-context info prefix
concatenated with the literal token text.  A non-string salt makes
`salt.encode("ascii")` raise an uncaught `AttributeError`; a non-ASCII
string salt makes it raise `UnicodeEncodeError`, which IS a `ValueError`
and so is caught by the handler on line 167 and becomes
`MalformedToken`.  Split like `parse_token`: `derive_payload` is the
body after `decode_token_bytes` succeeded. -/
def derive_payload (b : B64) (j : Json) (m : TokenManager) (token : String)
    (decoded : List Nat) : Except PyErr String :=
  match j.loads (decoded.take (decoded.length - m.hash.digest_size)) with
  | none => .error .malformed
  | some d =>
    match d.lookup "salt" with
    | none => .error .malformed
    | some (.num _) => .error .attributeError
    | some (.str s) =>
      match asciiBytes s with
      | none => .error .malformed
      | some salt =>
        match HKDF m.hash m.secret (some salt)
            (HKDF_INFO_DERIVE ++ strBytes token) m.hash.digest_size with
        | none => .error .assertErr
        | some secret => .ok (b.enc secret)

def get_derived_secret (b : B64) (j : Json) (m : TokenManager)
    (token : String) : Except PyErr String :=
  match b.dec token with
  | none => .error .malformed
  | some decoded => derive_payload b j m token decoded

/-- src/tokenlib/__init__.py lines 96-111 with Python object semantics
made explicit: the heap is a list of dict objects indexed by reference,
the caller's dict is the object at reference `r`.  `data = data.copy()`
allocates a fresh object; the `salt`/`expires` insertions mutate only
that copy.  Returns the final heap together with the minted token. -/
def make_token_mut (b : B64) (j : Json) (m : TokenManager)
    (heap : List Dict) (r : Nat) (salt : String) (now : Int) :
    List Dict × String :=
  let d0 := heap.getD r ([] : Dict)
  let heap1 := heap ++ [d0]
  let r1 := heap.length
  let d1 := if (d0.lookup "salt").isNone
    then d0 ++ ([("salt", JVal.str salt)] : Dict) else d0
  let heap2 := heap1.set r1 d1
  let d2 := if (d1.lookup "expires").isNone
    then d1 ++ ([("expires", JVal.num (now + m.timeout))] : Dict) else d1
  let heap3 := heap2.set r1 d2
  let payload := j.dumps d2
  let sig := m.get_signature payload
  (heap3, b.enc (payload ++ sig))

/-- A concrete stand-in for the HMAC of a 1-byte-digest hash, used to
exercise the theorems on executable inputs. -/
def toyHmac (key value : List Nat) : List Nat :=
  [(2 * key.sum + 3 * value.sum + value.length) % 256]

/-- A concrete 1-byte-digest hash module. -/
def toyHash : HashMod where
  digest_size := 1
  digest_size_pos := by decide
  hmac := toyHmac
  hmac_length := fun _ _ => rfl

/-- A concrete stand-in for the HMAC of a 2-byte-digest hash. -/
def toyHmac2 (key value : List Nat) : List Nat :=
  [(2 * key.sum + 3 * value.sum + value.length) % 256,
    (key.sum + value.sum) % 256]

/-- A concrete 2-byte-digest hash module. -/
def toyHash2 : HashMod where
  digest_size := 2
  digest_size_pos := by decide
  hmac := toyHmac2
  hmac_length := fun _ _ => rfl

/-- A concrete injective bytes-to-string codec playing the role of
urlsafe base64: each byte n is written as n repetitions of 'a' followed
by one 'b'. -/
def unaryEnc (bs : List Nat) : List Char :=
  (bs.map (fun n => List.replicate n 'a' ++ ['b'])).flatten

/-- Decoder for `unaryEnc`: count 'a' runs, close a byte at each 'b',
fail on any other character or on a trailing run. -/
def unaryDecGo : List Char → Nat → Option (List Nat)
  | [], 0 => some []
  | [], _ + 1 => none
  | 'a' :: rest, cur => unaryDecGo rest (cur + 1)
  | 'b' :: rest, cur => (unaryDecGo rest 0).map (fun l => cur :: l)
  | _ :: _, _ => none

/-- The executable base64-module stand-in.  The round-trip law is proved
inline: a run of `k` letters 'a' adds `k` to the current counter, and
decoding an encoded prefix peels off exactly the encoded bytes. -/
def toyB64 : B64 where
  enc := fun bs => String.mk (unaryEnc bs)
  dec := fun s => unaryDecGo s.data 0
  dec_enc := by
    have hrep : ∀ (k : Nat) (rest : List Char) (cur : Nat),
        unaryDecGo (List.replicate k 'a' ++ rest) cur
          = unaryDecGo rest (cur + k) := by
      intro k
      induction k with
      | zero => intro rest cur; simp
      | succ n ih =>
        intro rest cur
        rw [List.replicate_succ, List.cons_append]
        show unaryDecGo (List.replicate n 'a' ++ rest) (cur + 1) = _
        rw [ih]
        congr 1
        omega
    have hkey : ∀ (bs : List Nat) (rest : List Char),
        unaryDecGo (unaryEnc bs ++ rest) 0
          = (unaryDecGo rest 0).map (fun l => bs ++ l) := by
      intro bs
      induction bs with
      | nil =>
        intro rest
        simp only [unaryEnc, List.map_nil, List.flatten_nil, List.nil_append]
        cases unaryDecGo rest 0 <;> simp
      | cons n ns ih =>
        intro rest
        have he : unaryEnc (n :: ns)
            = List.replicate n 'a' ++ ('b' :: unaryEnc ns) := by
          simp [unaryEnc]
        rw [he, List.append_assoc, hrep]
        show (unaryDecGo (unaryEnc ns ++ rest) 0).map
          (fun l => (0 + n) :: l) = _
        rw [ih]
        cases unaryDecGo rest 0 <;> simp
    intro bs
    show unaryDecGo (unaryEnc bs) 0 = some bs
    have h := hkey bs []
    rw [List.append_nil] at h
    rw [h]
    simp [unaryDecGo]

/-- Toy JSON serializer, string leg: length-prefixed character codes. -/
def encStr (s : String) : List Nat :=
  s.data.length :: s.data.map Char.toNat

/-- Toy JSON serializer, value leg: tag 0 for strings, tag 1 for
nonnegative numbers, tag 2 for negative numbers. -/
def encVal : JVal → List Nat
  | .str s => 0 :: encStr s
  | .num n => if n < 0 then 2 :: [n.natAbs] else 1 :: [n.natAbs]

/-- Toy JSON `dumps`: pair count followed by the serialized pairs. -/
def dumpsD (d : Dict) : List Nat :=
  d.length :: (d.map (fun p => encStr p.1 ++ encVal p.2)).flatten

/-- Toy JSON parser: read `k` character codes. -/
def decChars : Nat → List Nat → Option (List Char × List Nat)
  | 0, rest => some ([], rest)
  | _ + 1, [] => none
  | k + 1, c :: rest =>
    (decChars k rest).map (fun p => (Char.ofNat c :: p.1, p.2))

/-- Toy JSON parser: read a length-prefixed string. -/
def decStrN : List Nat → Option (String × List Nat)
  | [] => none
  | n :: rest => (decChars n rest).map (fun p => (String.mk p.1, p.2))

/-- Toy JSON parser: read a tagged value. -/
def decVal : List Nat → Option (JVal × List Nat)
  | 0 :: rest => (decStrN rest).map (fun p => (JVal.str p.1, p.2))
  | 1 :: m :: rest => some (JVal.num (m : Int), rest)
  | 2 :: m :: rest => some (JVal.num (-(m : Int)), rest)
  | _ => none

/-- Toy JSON parser: read `k` key-value pairs. -/
def decPairs : Nat → List Nat → Option (Dict × List Nat)
  | 0, rest => some ([], rest)
  | k + 1, bs =>
    match decStrN bs with
    | none => none
    | some (s, r1) =>
      match decVal r1 with
      | none => none
      | some (v, r2) =>
        match decPairs k r2 with
        | none => none
        | some (d, r3) => some ((s, v) :: d, r3)

/-- Toy JSON `loads`: parse the pair count and the pairs, requiring the
input to be fully consumed. -/
def loadsD (bs : List Nat) : Option Dict :=
  match bs with
  | [] => none
  | n :: rest =>
    match decPairs n rest with
    | some (d, []) => some d
    | _ => none

/-- The executable json-module stand-in. -/
def toyJson : Json := ⟨dumpsD, loadsD⟩

/-- Propositional equality of results is decidable, so theorems can be
exercised on concrete runs by evaluation. -/
def exceptDecEq {ε α : Type} [DecidableEq ε] [DecidableEq α] :
    DecidableEq (Except ε α) := fun a b =>
  match a, b with
  | .error x, .error y =>
    if h : x = y then .isTrue (by rw [h])
    else .isFalse (fun hc => h (Except.error.inj hc))
  | .ok x, .ok y =>
    if h : x = y then .isTrue (by rw [h])
    else .isFalse (fun hc => h (Except.ok.inj hc))
  | .error _, .ok _ => .isFalse (fun hc => Except.noConfusion hc)
  | .ok _, .error _ => .isFalse (fun hc => Except.noConfusion hc)

instance : DecidableEq (Except PyErr Dict) := exceptDecEq

instance : DecidableEq (Except PyErr String) := exceptDecEq

/-- A concrete manager over the 1-byte toy hash, master secret `[3]`,
timeout 10. -/
def toyMgr : TokenManager := ⟨toyHash, [3], 10⟩

/-- A second manager differing from `toyMgr` only in its master secret. -/
def toyMgrB : TokenManager := ⟨toyHash, [5], 10⟩

/-- A concrete manager over the 2-byte toy hash. -/
def toyMgrW : TokenManager := ⟨toyHash2, [7], 10⟩

/-- Claim C6 witness payload: claims expiring at time 5. -/
def w6payload : List Nat := dumpsD [("expires", JVal.num 5)]

/-- Claim C6 witness token: correctly signed by `toyMgr`. -/
def w6token : String :=
  toyB64.enc (w6payload ++ toyMgr.get_signature w6payload)

/-- Claim C1 witness claims dict. -/
def w1data : Dict := [("hello", JVal.str "world")]

/-- Claim C7 witness payload: a dict with a string salt. -/
def w7payload : List Nat := dumpsD [("salt", JVal.str "ab")]

/-- Claim C7 witness token: garbage signature byte `9` appended, so the
token is NOT correctly signed, yet derivation succeeds. -/
def w7token : String := toyB64.enc (w7payload ++ [9])

/-- Claim C7 counterexample payload: a dict whose salt is the non-ASCII
string "é" (code point 233). -/
def cx7payload : List Nat := dumpsD [("salt", JVal.str "é")]

/-- Claim C7 counterexample token. -/
def cx7token : String := toyB64.enc (cx7payload ++ [9])

/-- Claim C10 witness payload: a dict whose salt is the number 7. -/
def w10payload : List Nat := dumpsD [("salt", JVal.num 7)]

/-- Claim C10 witness token (signature byte irrelevant). -/
def w10token : String := toyB64.enc (w10payload ++ [9])

theorem xor_eq_zero_iff (a b : Nat) : a ^^^ b = 0 ↔ a = b := by
  constructor
  · intro h
    have hb : a ^^^ (a ^^^ b) = a ^^^ 0 := by rw [h]
    rwa [← Nat.xor_assoc, Nat.xor_self, Nat.zero_xor, Nat.xor_zero, eq_comm] at hb
  · intro h; rw [h, Nat.xor_self]

theorem foldl_add_eq_sum (f : Nat × Nat → Nat) (l : List (Nat × Nat)) (acc : Nat) :
    l.foldl (fun a p => a + f p) acc = acc + (l.map f).sum := by
  induction l generalizing acc with
  | nil => simp
  | cons x xs ih => simp [List.foldl_cons, ih, Nat.add_assoc]

theorem eq_of_zip_eq (a b : List Nat) (hlen : a.length = b.length)
    (h : ∀ p ∈ a.zip b, p.1 = p.2) : a = b := by
  induction a generalizing b with
  | nil =>
    cases b with
    | nil => rfl
    | cons y ys => simp at hlen
  | cons x xs ih =>
    cases b with
    | nil => simp at hlen
    | cons y ys =>
      rw [List.zip_cons_cons] at h
      have hx : x = y := h (x, y) (List.mem_cons_self _ _)
      have hxs : xs = ys :=
        ih ys (by simpa using hlen) (fun p hp => h p (List.mem_cons_of_mem _ hp))
      rw [hx, hxs]

theorem zip_self_eq (a : List Nat) : ∀ p ∈ a.zip a, p.1 = p.2 := by
  induction a with
  | nil => intro p hp; simp at hp
  | cons x xs ih =>
    intro p hp
    rw [List.zip_cons_cons] at hp
    rcases List.mem_cons.mp hp with h | h
    · rw [h]
    · exact ih p h

theorem sum_xor_zip_eq_zero_iff (a b : List Nat) (hlen : a.length = b.length) :
    ((a.zip b).map fun p => p.1 ^^^ p.2).sum = 0 ↔ a = b := by
  rw [List.sum_eq_zero_iff]
  constructor
  · intro h
    apply eq_of_zip_eq a b hlen
    intro p hp
    exact (xor_eq_zero_iff p.1 p.2).mp
      (h (p.1 ^^^ p.2) (List.mem_map_of_mem _ hp))
  · intro h x hx
    subst h
    obtain ⟨p, hp, rfl⟩ := List.mem_map.mp hx
    exact (xor_eq_zero_iff p.1 p.2).mpr (zip_self_eq a p hp)

theorem strings_differ_iff (a b : List Nat) :
    strings_differ a b = true ↔ a ≠ b := by
  unfold strings_differ
  by_cases hlen : a.length = b.length
  · rw [if_neg (by simpa using hlen), bne_iff_ne, foldl_add_eq_sum]
    simpa using not_congr (sum_xor_zip_eq_zero_iff a b hlen)
  · rw [if_pos hlen]
    exact iff_of_true rfl (fun h => hlen (congrArg List.length h))

theorem strings_differ_self (a : List Nat) : strings_differ a a = false := by
  have h := strings_differ_iff a a
  cases hd : strings_differ a a with
  | false => rfl
  | true => exact absurd rfl (h.mp hd)

theorem hkdf_fold_spec (H : HashMod) (PRK info : List Nat) (N : Nat) :
    (List.range' 1 N).foldl
      (fun acc i =>
        let T := H.hmac PRK (acc.1 ++ info ++ [i])
        (T, acc.2 ++ [T]))
      (([] : List Nat), ([] : List (List Nat)))
    = (rfcT H PRK info N,
        (List.range' 1 N).map (fun i => rfcT H PRK info i)) := by
  induction N with
  | zero => simp [rfcT, List.range']
  | succ n ih =>
    rw [List.range'_concat 1 n]
    have h1 : 1 + 1 * n = n + 1 := by omega
    rw [h1, List.foldl_append, ih, List.map_append]
    simp only [List.foldl_cons, List.foldl_nil, List.map_cons, List.map_nil]
    exact rfl

theorem hkdf_blocks_flatten (H : HashMod) (PRK info : List Nat) (N : Nat) :
    ((List.range' 1 N).map (fun i => rfcT H PRK info i)).flatten
      = rfcBlocks H PRK info N := by
  induction N with
  | zero => simp [rfcBlocks, List.range']
  | succ n ih =>
    rw [List.range'_concat 1 n]
    have h1 : 1 + 1 * n = n + 1 := by omega
    rw [h1, List.map_append, List.flatten_append, ih]
    simp [rfcBlocks]

theorem HKDF_expand_eq_rfcExpand (H : HashMod) (PRK info : List Nat)
    (L : Nat) : HKDF_expand H PRK info L = rfcExpand H PRK info L := by
  unfold HKDF_expand rfcExpand
  by_cases h : (L + H.digest_size - 1) / H.digest_size ≤ 255
  · rw [if_pos h, if_pos h, hkdf_fold_spec, hkdf_blocks_flatten]
  · rw [if_neg h, if_neg h]

theorem decChars_enc (cs : List Char) (rest : List Nat) :
    decChars cs.length (cs.map Char.toNat ++ rest) = some (cs, rest) := by
  induction cs with
  | nil => rfl
  | cons c cst ih =>
    show (decChars cst.length (cst.map Char.toNat ++ rest)).map
      (fun p => (Char.ofNat (Char.toNat c) :: p.1, p.2)) = some (c :: cst, rest)
    rw [ih, Char.ofNat_toNat]
    rfl

theorem decStrN_enc (s : String) (rest : List Nat) :
    decStrN (encStr s ++ rest) = some (s, rest) := by
  show decStrN (s.data.length :: (s.data.map Char.toNat ++ rest)) = _
  simp only [decStrN, decChars_enc, Option.map_some']

theorem decVal_enc (v : JVal) (rest : List Nat) :
    decVal (encVal v ++ rest) = some (v, rest) := by
  cases v with
  | str s =>
    show decVal (0 :: (encStr s ++ rest)) = _
    simp only [decVal, decStrN_enc, Option.map_some']
  | num n =>
    by_cases hn : n < 0
    · have he : encVal (JVal.num n) ++ rest = 2 :: n.natAbs :: rest := by
        simp [encVal, hn]
      rw [he]
      have h2 : -(n.natAbs : Int) = n := by omega
      show some (JVal.num (-(n.natAbs : Int)), rest) = _
      rw [h2]
    · have he : encVal (JVal.num n) ++ rest = 1 :: n.natAbs :: rest := by
        simp [encVal, hn]
      rw [he]
      have h2 : ((n.natAbs : Int)) = n := by omega
      show some (JVal.num ((n.natAbs : Int)), rest) = _
      rw [h2]

theorem decPairs_enc (d : Dict) (rest : List Nat) :
    decPairs d.length ((d.map (fun p => encStr p.1 ++ encVal p.2)).flatten
      ++ rest) = some (d, rest) := by
  induction d generalizing rest with
  | nil => rfl
  | cons p ps ih =>
    simp only [List.length_cons, List.map_cons, List.flatten_cons,
      List.append_assoc]
    simp only [decPairs, decStrN_enc, decVal_enc, ih]

theorem loadsD_dumpsD (d : Dict) : loadsD (dumpsD d) = some d := by
  show loadsD (d.length :: (d.map (fun p => encStr p.1 ++ encVal p.2)).flatten)
    = some d
  have h := decPairs_enc d []
  rw [List.append_nil] at h
  simp only [loadsD, h]

theorem parse_token_none (b : B64) (j : Json) (m : TokenManager)
    (token : String) (now : Int) (h : b.dec token = none) :
    parse_token b j m token now = .error .malformed := by
  unfold parse_token
  rw [h]

theorem parse_token_some (b : B64) (j : Json) (m : TokenManager)
    (token : String) (now : Int) (decoded : List Nat)
    (h : b.dec token = some decoded) :
    parse_token b j m token now = parse_payload j m decoded now := by
  unfold parse_token
  rw [h]

theorem derive_token_none (b : B64) (j : Json) (m : TokenManager)
    (token : String) (h : b.dec token = none) :
    get_derived_secret b j m token = .error .malformed := by
  unfold get_derived_secret
  rw [h]

theorem derive_token_some (b : B64) (j : Json) (m : TokenManager)
    (token : String) (decoded : List Nat) (h : b.dec token = some decoded) :
    get_derived_secret b j m token = derive_payload b j m token decoded := by
  unfold get_derived_secret
  rw [h]

theorem take_sig (payload sig : List Nat) :
    (payload ++ sig).take ((payload ++ sig).length - sig.length) = payload := by
  rw [List.length_append, Nat.add_sub_cancel]
  exact List.take_left payload sig

theorem drop_sig (payload sig : List Nat) :
    (payload ++ sig).drop ((payload ++ sig).length - sig.length) = sig := by
  rw [List.length_append, Nat.add_sub_cancel]
  exact List.drop_left payload sig

theorem parse_payload_split (j : Json) (m : TokenManager)
    (payload sig : List Nat) (now : Int)
    (hsl : sig.length = m.hash.digest_size) :
    parse_payload j m (payload ++ sig) now =
      if strings_differ sig (m.get_signature payload) then .error .invalidSig
      else
        match j.loads payload with
        | none => .error .malformed
        | some data =>
          match data.lookup "expires" with
          | none => .error .keyError
          | some (.str _) => .error .typeError
          | some (.num e) => if e ≤ now then .error .expired else .ok data := by
  unfold parse_payload
  rw [← hsl, take_sig, drop_sig]

theorem derive_payload_split (b : B64) (j : Json) (m : TokenManager)
    (token : String) (payload sig : List Nat)
    (hsl : sig.length = m.hash.digest_size) :
    derive_payload b j m token (payload ++ sig) =
      match j.loads payload with
      | none => .error .malformed
      | some d =>
        match d.lookup "salt" with
        | none => .error .malformed
        | some (.num _) => .error .attributeError
        | some (.str s) =>
          match asciiBytes s with
          | none => .error .malformed
          | some salt =>
            match HKDF m.hash m.secret (some salt)
                (HKDF_INFO_DERIVE ++ strBytes token) m.hash.digest_size with
            | none => .error .assertErr
            | some secret => .ok (b.enc secret) := by
  unfold derive_payload
  rw [← hsl, take_sig]

theorem hkdf_expand_digest_size (H : HashMod) (PRK info : List Nat) :
    HKDF_expand H PRK info H.digest_size
      = some (H.hmac PRK (info ++ [1])) := by
  unfold HKDF_expand
  have hds := H.digest_size_pos
  have hN : (H.digest_size + H.digest_size - 1) / H.digest_size = 1 := by
    apply Nat.div_eq_of_lt_le <;> omega
  rw [hN]
  rw [if_pos (by omega)]
  show some ((([] : List Nat) ++ (H.hmac PRK ([] ++ info ++ [1])) ++
      ([] : List Nat)).take H.digest_size) = _
  rw [List.nil_append, List.nil_append, List.append_nil,
    ← H.hmac_length PRK (info ++ [1]), List.take_length]

theorem hkdf_digest_size (H : HashMod) (secret : List Nat)
    (salt : Option (List Nat)) (info : List Nat) :
    HKDF H secret salt info H.digest_size
      = some (H.hmac (HKDF_extract H salt secret) (info ++ [1])) :=
  hkdf_expand_digest_size H (HKDF_extract H salt secret) info

theorem lookup_append_some (l1 l2 : Dict) (k : String) (v : JVal)
    (h : Dict.lookup l1 k = some v) : Dict.lookup (l1 ++ l2) k = some v := by
  unfold Dict.lookup at h ⊢
  induction l1 with
  | nil => simp [List.lookup] at h
  | cons p ps ih =>
    obtain ⟨pk, pv⟩ := p
    rw [List.cons_append]
    cases hbe : (k == pk) with
    | true =>
      simp only [List.lookup, hbe] at h ⊢
      exact h
    | false =>
      simp only [List.lookup, hbe] at h ⊢
      exact ih h

theorem withDefaults_lookup (data : Dict) (salt : String) (expires : Int)
    (k : String) (v : JVal) (h : Dict.lookup data k = some v) :
    Dict.lookup (withDefaults data salt expires) k = some v := by
  unfold withDefaults
  by_cases h1 : (Dict.lookup data "salt").isNone
  · rw [if_pos h1]
    by_cases h2 : (Dict.lookup (data ++ ([("salt", JVal.str salt)] : Dict))
        "expires").isNone
    · rw [if_pos h2]
      exact lookup_append_some _ _ _ _ (lookup_append_some _ _ _ _ h)
    · rw [if_neg h2]
      exact lookup_append_some _ _ _ _ h
  · rw [if_neg h1]
    by_cases h2 : (Dict.lookup data "expires").isNone
    · rw [if_pos h2]
      exact lookup_append_some _ _ _ _ h
    · rw [if_neg h2]
      exact h

theorem make_token_eq (b : B64) (j : Json) (m : TokenManager) (data : Dict)
    (salt : String) (now : Int) :
    make_token b j m data salt now
      = b.enc (j.dumps (withDefaults data salt (now + m.timeout))
          ++ m.get_signature (j.dumps (withDefaults data salt
            (now + m.timeout)))) := rfl

/-- Claim C2: `parse_token` verifies the signature before the payload is
JSON-parsed.  For any token that decodes to bytes whose signature suffix
differs from the recomputed HMAC over the payload prefix, the result is
`InvalidSignature` for EVERY json module `j` — the payload bytes are
never interpreted; conversely any outcome other than `InvalidSignature`
(JSON-parse failure, expiry check, success) implies the signature
matched. -/
theorem claim_C2 (b : B64) (m : TokenManager) (token : String) (now : Int)
    (decoded : List Nat) (hdec : b.dec token = some decoded) :
    (decoded.drop (decoded.length - m.hash.digest_size)
        ≠ m.get_signature (decoded.take (decoded.length - m.hash.digest_size)) →
      ∀ j : Json, parse_token b j m token now = .error .invalidSig)
    ∧ (∀ j : Json, parse_token b j m token now ≠ .error .invalidSig →
      decoded.drop (decoded.length - m.hash.digest_size)
        = m.get_signature (decoded.take (decoded.length - m.hash.digest_size))) := by
  constructor
  · intro hne j
    rw [parse_token_some b j m token now decoded hdec]
    unfold parse_payload
    rw [if_pos ((strings_differ_iff _ _).mpr hne)]
  · intro j hres
    by_contra hne
    apply hres
    rw [parse_token_some b j m token now decoded hdec]
    unfold parse_payload
    rw [if_pos ((strings_differ_iff _ _).mpr hne)]

/-- Claim C2 witness: a concrete badly-signed token is rejected with
`InvalidSignature` under the toy json module. -/
theorem claim_C2_witness :
    toyB64.dec (toyB64.enc [2, 3]) = some [2, 3]
    ∧ parse_token toyB64 toyJson toyMgr (toyB64.enc [2, 3]) 0
        = .error .invalidSig :=
  ⟨by decide,
    (claim_C2 toyB64 toyMgr (toyB64.enc [2, 3]) 0 [2, 3] (by decide)).1
      (by decide) toyJson⟩

/-- Claim C3: `HKDF_expand` computes the RFC 5869 recurrence
`T(i) = HMAC(PRK, T(i-1) || info || byte(i))` for `i = 1..ceil(L/ds)`,
concatenates the blocks and returns exactly the first `L` bytes, failing
(assertion) exactly when more than 255 blocks would be needed — i.e. it
coincides with `rfcExpand`, the function written from the spec text;
`HKDF` is extract-then-expand; and `HKDF_extract` with an absent salt
substitutes a zero-filled digest-size buffer. -/
theorem claim_C3 (H : HashMod) (PRK info secret : List Nat)
    (salt : Option (List Nat)) (L size : Nat) :
    HKDF_expand H PRK info L = rfcExpand H PRK info L
    ∧ HKDF H secret salt info size
        = HKDF_expand H (HKDF_extract H salt secret) info size
    ∧ HKDF_extract H none secret
        = H.hmac (List.replicate H.digest_size 0) secret :=
  ⟨HKDF_expand_eq_rfcExpand H PRK info L, rfl, rfl⟩

/-- Claim C4: `strings_differ a b` returns true iff `a` and `b` are
unequal byte sequences — including mismatched lengths and empty
inputs. -/
theorem claim_C4 (string1 string2 : List Nat) :
    strings_differ string1 string2 = true ↔ string1 ≠ string2 :=
  strings_differ_iff string1 string2

/-- Claim C5 counterexample: the claim says a token whose decoded bytes
are shorter than the digest size raises `MalformedToken`.  It does not:
with a 2-byte digest, the token decoding to the single byte `[5]` makes
the payload empty and the signature suffix the whole 1-byte string, the
constant-time compare fails on the length mismatch, and `parse_token`
raises `InvalidSignature`, not `MalformedToken`. -/
theorem claim_C5_counterexample :
    parse_token toyB64 toyJson toyMgrW (toyB64.enc [5]) 0
        = .error .invalidSig
    ∧ parse_token toyB64 toyJson toyMgrW (toyB64.enc [5]) 0
        ≠ .error .malformed := by
  constructor
  · decide
  · decide

/-- Claim C5 as amended: `parse_token` raises `MalformedToken` on every
input whose base64 decoding fails; an input whose decoded byte string is
shorter than the digest size instead fails the signature comparison
(whole-string suffix vs full-length recomputed HMAC, a length mismatch)
and raises `InvalidSignature`. -/
theorem claim_C5 (b : B64) (j : Json) (m : TokenManager) (token : String)
    (now : Int) :
    (b.dec token = none → parse_token b j m token now = .error .malformed)
    ∧ (∀ decoded, b.dec token = some decoded →
        decoded.length < m.hash.digest_size →
        parse_token b j m token now = .error .invalidSig) := by
  constructor
  · exact parse_token_none b j m token now
  · intro decoded hdec hlen
    rw [parse_token_some b j m token now decoded hdec]
    unfold parse_payload
    have h0 : decoded.length - m.hash.digest_size = 0 := by omega
    rw [h0, List.drop_zero, List.take_zero]
    have hne : decoded ≠ m.get_signature [] := fun he => by
      have h2 : (m.get_signature ([] : List Nat)).length = m.hash.digest_size :=
        m.hash.hmac_length m.sig_secret []
      rw [← he] at h2
      omega
    rw [if_pos ((strings_differ_iff _ _).mpr hne)]

/-- Claim C5 witness: the amended statement exercised on the concrete
short token of the counterexample. -/
theorem claim_C5_witness :
    toyB64.dec (toyB64.enc [5]) = some [5]
    ∧ ([5] : List Nat).length < toyMgrW.hash.digest_size
    ∧ parse_token toyB64 toyJson toyMgrW (toyB64.enc [5]) 0
        = .error .invalidSig :=
  ⟨by decide, by decide,
    (claim_C5 toyB64 toyJson toyMgrW (toyB64.enc [5]) 0).2 [5]
      (by decide) (by decide)⟩

/-- Claim C6: on a correctly signed token (decoded bytes whose signature
suffix equals the recomputed HMAC over the payload prefix, payload
parsing to claims `d` with numeric `expires` value `e`), `parse_token`
raises `ExpiredToken` exactly when `e ≤ now`, and returns the claims
when `now < e`: the boundary `e = now` counts as expired. -/
theorem claim_C6 (b : B64) (j : Json) (m : TokenManager) (token : String)
    (now : Int) (decoded : List Nat) (d : Dict) (e : Int)
    (hdec : b.dec token = some decoded)
    (hsig : decoded.drop (decoded.length - m.hash.digest_size)
      = m.get_signature (decoded.take (decoded.length - m.hash.digest_size)))
    (hload : j.loads (decoded.take (decoded.length - m.hash.digest_size))
      = some d)
    (hexp : Dict.lookup d "expires" = some (JVal.num e)) :
    parse_token b j m token now
      = if e ≤ now then .error .expired else .ok d := by
  rw [parse_token_some b j m token now decoded hdec]
  unfold parse_payload
  rw [hsig, strings_differ_self, if_neg (by simp)]
  simp only [hload, hexp]

set_option maxRecDepth 40000 in
/-- Claim C6 witness: parsing the correctly signed token exactly at its
expiry time (`now = expires = 5`) hits the boundary case. -/
theorem claim_C6_witness :
    toyB64.dec w6token = some (w6payload ++ toyMgr.get_signature w6payload)
    ∧ parse_token toyB64 toyJson toyMgr w6token 5
      = if (5 : Int) ≤ 5 then .error .expired
        else .ok [("expires", JVal.num 5)] :=
  ⟨by decide,
    claim_C6 toyB64 toyJson toyMgr w6token 5
      (w6payload ++ toyMgr.get_signature w6payload)
      [("expires", JVal.num 5)] 5 (by decide) (by decide) (by decide)
      (by decide)⟩

theorem parse_of_make (b : B64) (j : Json) (m1 m2 : TokenManager)
    (data : Dict) (salt : String) (mintNow parseNow : Int) :
    parse_token b j m2 (make_token b j m1 data salt mintNow) parseNow
      = parse_payload j m2
          (j.dumps (withDefaults data salt (mintNow + m1.timeout))
            ++ m1.get_signature
              (j.dumps (withDefaults data salt (mintNow + m1.timeout))))
          parseNow := by
  rw [make_token_eq]
  exact parse_token_some _ _ _ _ _ _ (b.dec_enc _)

/-- Claim C1: round trip.  For any claims dict, when the json module
round-trips the prepared dict (the caller's dict with `salt`/`expires`
appended only when absent) and its `expires` value is a number `e` with
`now < e`, parsing the freshly minted token returns exactly the prepared
dict; moreover every key-value pair of the caller's dict — including any
caller-supplied `salt` or `expires` — appears unchanged in the result. -/
theorem claim_C1 (b : B64) (j : Json) (m : TokenManager) (data : Dict)
    (salt : String) (mintNow parseNow : Int) (e : Int)
    (hjson : j.loads (j.dumps (withDefaults data salt (mintNow + m.timeout)))
      = some (withDefaults data salt (mintNow + m.timeout)))
    (hexp : Dict.lookup (withDefaults data salt (mintNow + m.timeout))
      "expires" = some (JVal.num e))
    (hnow : parseNow < e) :
    parse_token b j m (make_token b j m data salt mintNow) parseNow
      = .ok (withDefaults data salt (mintNow + m.timeout))
    ∧ ∀ k v, Dict.lookup data k = some v →
        Dict.lookup (withDefaults data salt (mintNow + m.timeout)) k
          = some v := by
  constructor
  · rw [parse_of_make]
    rw [parse_payload_split j m
      (j.dumps (withDefaults data salt (mintNow + m.timeout)))
      (m.get_signature (j.dumps (withDefaults data salt
        (mintNow + m.timeout))))
      parseNow (m.hash.hmac_length _ _)]
    rw [strings_differ_self, if_neg (by simp)]
    simp only [hjson, hexp]
    rw [if_neg (by omega)]
  · intro k v h
    exact withDefaults_lookup data salt (mintNow + m.timeout) k v h

/-- Claim C1 witness: mint at time 0 with salt "ab" under `toyMgr`
(timeout 10), parse at time 3. -/
theorem claim_C1_witness :
    toyJson.loads (toyJson.dumps (withDefaults w1data "ab"
        (0 + toyMgr.timeout)))
      = some (withDefaults w1data "ab" (0 + toyMgr.timeout))
    ∧ (3 : Int) < 10
    ∧ parse_token toyB64 toyJson toyMgr
        (make_token toyB64 toyJson toyMgr w1data "ab" 0) 3
      = .ok (withDefaults w1data "ab" (0 + toyMgr.timeout)) :=
  ⟨by decide, by decide,
    (claim_C1 toyB64 toyJson toyMgr w1data "ab" 0 3 10 (by decide)
      (by decide) (by decide)).1⟩

set_option maxRecDepth 40000 in
/-- Claim C7 counterexample: the claim asserts the derived secret is
returned for EVERY token whose payload is valid JSON with a `salt` key,
but for the non-ASCII string salt "é" the program's
`salt.encode("ascii")` raises `UnicodeEncodeError` — a `ValueError` —
which the handler converts to `MalformedToken`: on a concrete token that
base64-decodes and JSON-parses fine and has a `salt` key,
`get_derived_secret` returns `MalformedToken` and not the claimed HKDF
encoding. -/
theorem claim_C7_counterexample :
    toyB64.dec cx7token = some (cx7payload ++ [9])
    ∧ toyJson.loads ((cx7payload ++ [9]).take ((cx7payload ++ [9]).length
        - toyMgr.hash.digest_size)) = some [("salt", JVal.str "é")]
    ∧ Dict.lookup [("salt", JVal.str "é")] "salt" = some (JVal.str "é")
    ∧ get_derived_secret toyB64 toyJson toyMgr cx7token = .error .malformed
    ∧ get_derived_secret toyB64 toyJson toyMgr cx7token
      ≠ .ok (toyB64.enc ((HKDF toyMgr.hash toyMgr.secret
          (some (strBytes "é")) (HKDF_INFO_DERIVE ++ strBytes cx7token)
          toyMgr.hash.digest_size).getD [])) := by
  refine ⟨by decide, by decide, by decide, by decide, by decide⟩

/-- Claim C7 as amended: `get_derived_secret` never verifies the
signature and never checks expiry — there is no signature comparison and
no `expires` access in its code path.  Whenever the token base64-decodes
and its payload prefix JSON-parses to a dict whose `salt` is a string
that encodes to ASCII bytes, it returns the encoded HKDF of the master
secret with that salt and info = derive-prefix ++ literal token text
(the HKDF that `hkdf_digest_size` shows equal to one HMAC block); when
base64 decoding, JSON parsing, salt lookup, or ASCII-encoding of the
salt fails it raises `MalformedToken`. -/
theorem claim_C7 (b : B64) (j : Json) (m : TokenManager) (token : String) :
    (b.dec token = none → get_derived_secret b j m token = .error .malformed)
    ∧ (∀ decoded, b.dec token = some decoded →
        j.loads (decoded.take (decoded.length - m.hash.digest_size)) = none →
        get_derived_secret b j m token = .error .malformed)
    ∧ (∀ decoded d, b.dec token = some decoded →
        j.loads (decoded.take (decoded.length - m.hash.digest_size))
          = some d →
        Dict.lookup d "salt" = none →
        get_derived_secret b j m token = .error .malformed)
    ∧ (∀ decoded d s, b.dec token = some decoded →
        j.loads (decoded.take (decoded.length - m.hash.digest_size))
          = some d →
        Dict.lookup d "salt" = some (JVal.str s) →
        asciiBytes s = none →
        get_derived_secret b j m token = .error .malformed)
    ∧ (∀ decoded d s saltB, b.dec token = some decoded →
        j.loads (decoded.take (decoded.length - m.hash.digest_size))
          = some d →
        Dict.lookup d "salt" = some (JVal.str s) →
        asciiBytes s = some saltB →
        HKDF m.hash m.secret (some saltB)
            (HKDF_INFO_DERIVE ++ strBytes token) m.hash.digest_size
          = some (m.hash.hmac
              (HKDF_extract m.hash (some saltB) m.secret)
              (HKDF_INFO_DERIVE ++ strBytes token ++ [1]))
        ∧ get_derived_secret b j m token
          = .ok (b.enc (m.hash.hmac
              (HKDF_extract m.hash (some saltB) m.secret)
              (HKDF_INFO_DERIVE ++ strBytes token ++ [1])))) := by
  refine ⟨?_, ?_, ?_, ?_, ?_⟩
  · exact derive_token_none b j m token
  · intro decoded hdec hload
    rw [derive_token_some b j m token decoded hdec]
    unfold derive_payload
    simp only [hload]
  · intro decoded d hdec hload hsalt
    rw [derive_token_some b j m token decoded hdec]
    unfold derive_payload
    simp only [hload, hsalt]
  · intro decoded d s hdec hload hsalt hascii
    rw [derive_token_some b j m token decoded hdec]
    unfold derive_payload
    simp only [hload, hsalt, hascii]
  · intro decoded d s saltB hdec hload hsalt hascii
    refine ⟨hkdf_digest_size m.hash m.secret _ _, ?_⟩
    rw [derive_token_some b j m token decoded hdec]
    unfold derive_payload
    simp only [hload, hsalt, hascii, hkdf_digest_size]

set_option maxRecDepth 40000 in
/-- Claim C7 witness: the derived secret is computed for a token whose
signature is invalid, with the ASCII salt "ab" encoding to `[97, 98]`. -/
theorem claim_C7_witness :
    toyB64.dec w7token = some (w7payload ++ [9])
    ∧ asciiBytes "ab" = some [97, 98]
    ∧ get_derived_secret toyB64 toyJson toyMgr w7token
      = .ok (toyB64.enc (toyMgr.hash.hmac
          (HKDF_extract toyMgr.hash (some [97, 98]) toyMgr.secret)
          (HKDF_INFO_DERIVE ++ strBytes w7token ++ [1]))) :=
  ⟨by decide, by decide,
    ((claim_C7 toyB64 toyJson toyMgr w7token).2.2.2.2 (w7payload ++ [9])
      [("salt", JVal.str "ab")] "ab" [97, 98] (by decide) (by decide)
      (by decide) (by decide)).2⟩

/-- Claim C8: key separation.  For two managers sharing the hash module
and timeout but holding different master secrets, whenever their
HKDF-derived signing keys yield different HMAC signatures over the minted
payload (the cryptographic expectation for distinct secrets), parsing a
token minted by the first manager with the second manager fails with
`InvalidSignature`. -/
theorem claim_C8 (b : B64) (j : Json) (H : HashMod) (s1 s2 : List Nat)
    (t : Int) (data : Dict) (salt : String) (now now2 : Int)
    (hsig : TokenManager.get_signature ⟨H, s2, t⟩
        (j.dumps (withDefaults data salt (now + t)))
      ≠ TokenManager.get_signature ⟨H, s1, t⟩
        (j.dumps (withDefaults data salt (now + t)))) :
    parse_token b j ⟨H, s2, t⟩ (make_token b j ⟨H, s1, t⟩ data salt now) now2
      = .error .invalidSig := by
  rw [parse_of_make b j ⟨H, s1, t⟩ ⟨H, s2, t⟩ data salt now now2]
  rw [parse_payload_split j ⟨H, s2, t⟩
    (j.dumps (withDefaults data salt (now + t)))
    (TokenManager.get_signature ⟨H, s1, t⟩
      (j.dumps (withDefaults data salt (now + t))))
    now2 (H.hmac_length _ _)]
  rw [if_pos ((strings_differ_iff _ _).mpr (Ne.symm hsig))]

set_option maxRecDepth 40000 in
/-- Claim C8 witness: two concrete managers with secrets `[3]` and `[5]`
produce different signatures on the minted payload, and cross-parsing
fails. -/
theorem claim_C8_witness :
    TokenManager.get_signature toyMgrB
        (toyJson.dumps (withDefaults [] "s" (0 + 10)))
      ≠ TokenManager.get_signature toyMgr
        (toyJson.dumps (withDefaults [] "s" (0 + 10)))
    ∧ parse_token toyB64 toyJson toyMgrB
        (make_token toyB64 toyJson toyMgr [] "s" 0) 0
      = .error .invalidSig :=
  ⟨by decide,
    claim_C8 toyB64 toyJson toyHash [3] [5] 10 [] "s" 0 0 (by decide)⟩

theorem getD_set_out {α : Type} (l : List α) (n : Nat) (a dflt : α)
    (i : Nat) (hi : n ≠ i) : (l.set n a).getD i dflt = l.getD i dflt := by
  rw [List.getD_eq_getElem?_getD, List.getD_eq_getElem?_getD,
    List.getElem?_set_ne hi]

theorem getD_append_out {α : Type} (l l2 : List α) (dflt : α) (i : Nat)
    (hi : i < l.length) : (l ++ l2).getD i dflt = l.getD i dflt := by
  rw [List.getD_eq_getElem?_getD, List.getD_eq_getElem?_getD,
    List.getElem?_append_left hi]

/-- Claim C9: `make_token` never mutates the caller's claims dict.  In
the heap model the final heap agrees with the initial heap on every
pre-existing reference (the `salt`/`expires` insertions hit only the
fresh copy), and the minted token is the one computed by the pure
`make_token` on the caller's dict. -/
theorem claim_C9 (b : B64) (j : Json) (m : TokenManager) (heap : List Dict)
    (r : Nat) (salt : String) (now : Int) (i : Nat) (hi : i < heap.length) :
    (make_token_mut b j m heap r salt now).1.getD i ([] : Dict)
        = heap.getD i ([] : Dict)
    ∧ (make_token_mut b j m heap r salt now).2
        = make_token b j m (heap.getD r ([] : Dict)) salt now := by
  constructor
  · simp only [make_token_mut]
    rw [getD_set_out _ _ _ _ _ (by omega), getD_set_out _ _ _ _ _ (by omega),
      getD_append_out _ _ _ _ hi]
  · rfl

/-- Claim C9 witness: a one-dict heap is unchanged by minting. -/
theorem claim_C9_witness :
    0 < ([[("a", JVal.num 1)]] : List Dict).length
    ∧ (make_token_mut toyB64 toyJson toyMgr [[("a", JVal.num 1)]] 0 "s"
        0).1.getD 0 ([] : Dict)
      = ([[("a", JVal.num 1)]] : List Dict).getD 0 ([] : Dict) :=
  ⟨by decide,
    (claim_C9 toyB64 toyJson toyMgr [[("a", JVal.num 1)]] 0 "s" 0 0
      (by decide)).1⟩

/-- Claim C10: a token whose payload JSON has a non-string `salt` (a
number) makes `get_derived_secret` raise the uncaught `AttributeError`
from `salt.encode("ascii")` — which is not a tokenlib token-validation
error, since only `TypeError`, `KeyError` and `ValueError` are converted
to `MalformedToken`. -/
theorem claim_C10 (b : B64) (j : Json) (m : TokenManager) (token : String)
    (decoded : List Nat) (d : Dict) (k : Int)
    (hdec : b.dec token = some decoded)
    (hload : j.loads (decoded.take (decoded.length - m.hash.digest_size))
      = some d)
    (hsalt : Dict.lookup d "salt" = some (JVal.num k)) :
    get_derived_secret b j m token = .error .attributeError
    ∧ PyErr.attributeError.isTokenError = false := by
  constructor
  · rw [derive_token_some b j m token decoded hdec]
    unfold derive_payload
    simp only [hload, hsalt]
  · rfl

set_option maxRecDepth 40000 in
/-- Claim C10 witness: the concrete non-string-salt token yields the
uncaught `AttributeError`. -/
theorem claim_C10_witness :
    toyB64.dec w10token = some (w10payload ++ [9])
    ∧ get_derived_secret toyB64 toyJson toyMgr w10token
      = .error .attributeError :=
  ⟨by decide,
    (claim_C10 toyB64 toyJson toyMgr w10token (w10payload ++ [9])
      [("salt", JVal.num 7)] 7 (by decide) (by decide) (by decide)).1⟩
